import Mathlib

/-
A shallow embedding of the somars internet-radio client's playback control
plane (src/keyboard.rs, src/audio_monitor.rs, src/station.rs, src/main.rs),
together with theorems checking the specification's claims about it.

Modelling conventions.

* `Instant` is a natural-number reading of the monotone clock; every
  operation that calls `Instant::now()` takes the current reading `now` as an
  explicit argument.  `Duration` is a natural number in the same unit.
  Rust's `Instant::elapsed` and the saturating `Instant::duration_since`
  both coincide with truncated `Nat` subtraction.
* The `f32` volume is modelled as a rational number; the guard-then-step
  structure of the volume handlers is preserved exactly.
* The rodio sink is a record of queue length, paused flag and volume.
  `Sink::stop` empties the queue, `Sink::append` enqueues one source,
  `Sink::play` / `Sink::pause` toggle the paused flag, and `Sink::empty`
  is a query whose result the code discards.  The mutex around the sink is
  modelled as always locking: the tick loop is single-threaded, and the
  lock can only be poisoned by a panic elsewhere.
* Tasks spawned by `handle_play` receive no `&mut App`; their observable
  effect is the sequence of log-message severities they emit and the sink
  transformation they perform on a successful connect.  Both are modelled
  as functions of the connect attempt's outcome.
-/

/-- `PlaybackState` from src/main.rs. -/
inductive PlaybackState where
  | Playing
  | Paused
  | Stopped
deriving DecidableEq, Repr

/-- `MessageType` from src/main.rs: the severity tag of a history entry. -/
inductive MessageType where
  | Error
  | Info
  | System
  | Background
  | Playback
deriving DecidableEq, Repr

/-- `Station` from src/station.rs. -/
structure Station where
  id : String
  title : String
  description : String
  dj : String
  genre : String
  url : String
  image : String
  last_playing : String
deriving DecidableEq, Repr

/-- The rodio `Sink` state visible to this program: how many sources are
queued, whether output is paused, and the applied volume. -/
structure SinkState where
  queue : Nat
  paused : Bool
  volume : ℚ
deriving DecidableEq, Repr

/-- `Sink::stop`: stops the sink by emptying its queue. -/
def sinkStop (s : SinkState) : SinkState := { s with queue := 0 }

/-- `Sink::play`: resumes output. -/
def sinkPlay (s : SinkState) : SinkState := { s with paused := false }

/-- `Sink::pause`: pauses output. -/
def sinkPause (s : SinkState) : SinkState := { s with paused := true }

/-- `Sink::set_volume`. -/
def sinkSetVolume (v : ℚ) (s : SinkState) : SinkState := { s with volume := v }

/-- `Sink::append`: enqueues one decoded source. -/
def sinkAppend (s : SinkState) : SinkState := { s with queue := s.queue + 1 }

/-- The `App` state from src/main.rs, restricted to the fields the playback
control plane reads or writes (src/keyboard.rs and src/audio_monitor.rs).
`selected_station` is the ratatui `ListState` cursor (`selected()`), `sink`
is `Option<Arc<Mutex<Sink>>>`, and the three timing fields are the ones
`handle_play` / `handle_stop` / `handle_pause` maintain. -/
structure App where
  stations : List Station
  selected_station : Option Nat
  active_station : Option Nat
  playback_state : PlaybackState
  sink : Option SinkState
  loading : Bool
  volume : ℚ
  playback_start_time : Option Nat
  total_played : Nat
  last_pause_time : Option Nat
deriving DecidableEq, Repr

/-- The synchronous part of `handle_play` (src/keyboard.rs lines 64-224):
when a station is selected, exists, and a sink is present, it records
`active_station`, sets `playback_start_time := now`, folds
`last_pause_time.duration_since(playback_start_time)` (saturating, and the
start time was just set to `now`) into `total_played` while clearing
`last_pause_time`, stops the sink, spawns the streaming task, and sets
`playback_state := Playing` — before the spawned connect attempt resolves. -/
def handle_play (app : App) (now : Nat) : App :=
  match app.selected_station with
  | none => app
  | some index =>
    match app.stations.get? index with
    | none => app
    | some _station =>
      match app.sink with
      | none => app
      | some s =>
        let a1 : App := { app with
          active_station := some index,
          playback_start_time := some now }
        let a2 : App :=
          match a1.last_pause_time with
          | some pause_time => { a1 with
              last_pause_time := none,
              total_played := a1.total_played + (pause_time - now) }
          | none => a1
        { a2 with sink := some (sinkStop s),
                  playback_state := PlaybackState.Playing }

/-- `handle_stop` (src/keyboard.rs lines 226-255). -/
def handle_stop (app : App) (now : Nat) (soft_stop : Bool) : App :=
  match app.sink with
  | none => app
  | some s =>
    match app.playback_state with
    | PlaybackState.Playing =>
      let a1 : App := { app with
        sink := some (sinkStop s),
        playback_state := PlaybackState.Stopped }
      let a2 : App :=
        match a1.playback_start_time with
        | some start => { a1 with
            playback_start_time := none,
            total_played := a1.total_played + (now - start) }
        | none => a1
      { a2 with last_pause_time := some now }
    | PlaybackState.Stopped =>
      if soft_stop then
        { app with
          sink := some (sinkPlay s),
          playback_state := PlaybackState.Playing,
          playback_start_time := some now }
      else
        app
    | PlaybackState.Paused => app

/-- `handle_pause` (src/keyboard.rs lines 257-278). -/
def handle_pause (app : App) (now : Nat) : App :=
  match app.sink with
  | none => app
  | some s =>
    match app.playback_state with
    | PlaybackState.Playing =>
      let a1 : App := { app with
        sink := some (sinkPause s),
        playback_state := PlaybackState.Paused }
      let a2 : App :=
        match a1.playback_start_time with
        | some start => { a1 with
            playback_start_time := none,
            total_played := a1.total_played + (now - start) }
        | none => a1
      { a2 with last_pause_time := some now }
    | PlaybackState.Paused =>
      { app with
        sink := some (sinkPlay s),
        playback_state := PlaybackState.Playing,
        playback_start_time := some now }
    | PlaybackState.Stopped => app

/-- `handle_up` (src/keyboard.rs lines 280-288). -/
def handle_up (app : App) : App :=
  match app.selected_station with
  | some selected =>
    if selected > 0 then
      { app with selected_station := some (selected - 1) }
    else
      app
  | none =>
    if app.stations.isEmpty then app
    else { app with selected_station := some 0 }

/-- Checked `usize` subtraction: `none` models the arithmetic-overflow panic
a debug build raises (a release build instead wraps to `usize::MAX`). -/
def usizeSub? (a b : Nat) : Option Nat :=
  if b ≤ a then some (a - b) else none

/-- `handle_down` (src/keyboard.rs lines 290-300).  The comparison
`selected < app.stations.len() - 1` subtracts from a `usize`; `none` is the
debug-build panic when `stations.len() = 0`. -/
def handle_down (app : App) : Option App :=
  if app.loading then some app
  else
    match app.selected_station with
    | some selected =>
      match usizeSub? app.stations.length 1 with
      | none => none
      | some lastIndex =>
        if selected < lastIndex then
          some { app with selected_station := some (selected + 1) }
        else
          some app
    | none =>
      if app.stations.isEmpty then some app
      else some { app with selected_station := some 0 }

/-- `handle_volume_up` (src/keyboard.rs lines 302-311): guard `volume < 2.0`,
then step by `0.1` and push the new volume to the sink. -/
def handle_volume_up (app : App) : App :=
  if app.volume < 2 then
    let v := app.volume + 1/10
    { app with volume := v, sink := app.sink.map (sinkSetVolume v) }
  else
    app

/-- `handle_volume_down` (src/keyboard.rs lines 313-322): guard
`volume > 0.0`, then step by `0.1` and push the new volume to the sink. -/
def handle_volume_down (app : App) : App :=
  if app.volume > 0 then
    let v := app.volume - 1/10
    { app with volume := v, sink := app.sink.map (sinkSetVolume v) }
  else
    app

/-- Modelled from the spec: the `SetVolume` command handler lives in the
`control` module, which is not under src/ (only src/control_tests.rs names
`ControlCommand::SetVolume`).  Per the spec, `set_volume(v)` clamps `v` to
[0.0, 2.0], applies it to the live sink if present, and stores it as the
session default for subsequent `play` calls. -/
def set_volume (app : App) (v : ℚ) : App :=
  let cv := max 0 (min v 2)
  { app with volume := cv, sink := app.sink.map (sinkSetVolume cv) }

/-- How an asynchronous connect attempt spawned by `handle_play` can end.
`connectFail` covers the early steps that exit the task through the `?`
operator (client build, URL parse, `HttpStream::new`); `downloadFail` is
`StreamDownload::from_stream` returning `Err`; `success` binds the decoded
source to the sink. -/
inductive StreamOutcome where
  | connectFail
  | downloadFail
  | success
deriving DecidableEq, Repr

/-- The severities of the log entries the spawned streaming task itself
emits for each outcome (src/keyboard.rs lines 88-195).  On `connectFail`
the `?` return skips every later `add_log`, so only the initial
"Initializing stream" System entry is emitted; on `downloadFail` the task
logs an Error for the failure, the System bit-rate line, and two more
Error lines before returning `Ok(())`. -/
def play_task_logs : StreamOutcome → List MessageType
  | StreamOutcome.connectFail => [MessageType.System]
  | StreamOutcome.downloadFail =>
      [MessageType.System, MessageType.Error, MessageType.System,
       MessageType.Error, MessageType.Error]
  | StreamOutcome.success =>
      [MessageType.System, MessageType.Background, MessageType.System,
       MessageType.System]

/-- The severities logged by the supervising task (src/keyboard.rs lines
200-220).  `handle.await` is `Err` only on a join error (panic or abort):
a task that merely returns `Err` still lands in the `else` branch, so every
outcome above yields the two System entries "Starting playback of" and
"Connecting to stream...". -/
def play_supervisor_logs : StreamOutcome → List MessageType
  | _ => [MessageType.System, MessageType.System]

/-- All log severities produced by one `handle_play` connect attempt. -/
def play_all_logs (o : StreamOutcome) : List MessageType :=
  play_task_logs o ++ play_supervisor_logs o

/-- The effect the spawned task has on the `App` when the connect attempt
resolves.  The task holds only the sink handle and the log channel, never
`&mut App`: on success it appends the decoder, applies the volume captured
at spawn time, and calls `play` on the sink; on either failure it touches
nothing. -/
def apply_play_outcome (captured_volume : ℚ) (app : App) :
    StreamOutcome → App
  | StreamOutcome.success =>
      let bind := fun s => sinkPlay (sinkSetVolume captured_volume (sinkAppend s))
      { app with sink := app.sink.map bind }
  | StreamOutcome.connectFail => app
  | StreamOutcome.downloadFail => app

/-- `restart_playback` (src/audio_monitor.rs lines 6-28): capture the
selected index, stop and empty the sink, force `PlaybackState::Stopped`,
and when the captured index is in range call `keyboard::handle_play`. -/
def restart_playback (app : App) (now : Nat) : App :=
  let selected_station_index := app.selected_station
  let a1 : App :=
    match app.sink with
    | some s => { app with sink := some (sinkStop s) }
    | none => app
  let a2 : App := { a1 with playback_state := PlaybackState.Stopped }
  match selected_station_index with
  | some station_index =>
    if station_index < a2.stations.length then handle_play a2 now else a2
  | none => a2

/-- The behaviour the spec ascribes to the Underrun Monitor's restart path,
written from its words: stop and empty the sink, set `PlaybackState` to
Stopped, and, whenever a station index is selected and that index is within
the station list, invoke the same `handle_play` operation a `Play` command
would invoke, bound to the currently selected station index at the time of
restart. -/
def restart_as_fresh_play (app : App) (now : Nat) : App :=
  let stopped : App := { app with
    sink := app.sink.map sinkStop,
    playback_state := PlaybackState.Stopped }
  match app.selected_station with
  | some index =>
    if index < app.stations.length then handle_play stopped now else stopped
  | none => stopped

/-- Modelled from the spec: the Underrun Monitor's backoff computation is
not under src/ (src/audio_monitor.rs holds only the restart helper).  Per
the spec, the required backoff before an automatic restart is
`min(0.5 * 2^restart_attempts, 30.0)` seconds. -/
def required_backoff (restart_attempts : Nat) : ℚ :=
  min (1/2 * 2 ^ restart_attempts) 30

/-- Modelled from the spec: the `UnderrunTracker` per-session state named in
the data model; only the fields the backoff claims use are carried. -/
structure UnderrunTracker where
  restart_attempts : Nat
  last_restart_time : Option Nat
deriving DecidableEq, Repr

/-- Modelled from the spec: a successful reconnect resets `restart_attempts`
to zero, collapsing backoff back to its floor. -/
def on_reconnect_success (t : UnderrunTracker) : UnderrunTracker :=
  { t with restart_attempts := 0 }

/-- Modelled from the spec: the Underrun Monitor increments
`restart_attempts` and records `last_restart_time = now` when it triggers
a restart. -/
def on_restart (t : UnderrunTracker) (now : Nat) : UnderrunTracker :=
  { t with restart_attempts := t.restart_attempts + 1,
           last_restart_time := some now }

/-- A playlist entry of a directory channel (src/station.rs). -/
structure Playlist where
  url : String
  format : String
  quality : String
deriving DecidableEq, Repr

/-- A channel of the directory response (src/station.rs). -/
structure Channel where
  id : String
  title : String
  description : String
  dj : String
  genre : String
  image : String
  lastPlaying : String
  playlists : List Playlist
deriving DecidableEq, Repr

/-- Text is scanned as its character list (structural recursion makes
every scan executable by evaluation). -/
def strChars (s : String) : List Char := s.data

/-- Split a character list at every occurrence of `sep` (the semantics of
Rust's `str::split(char)`). -/
def splitOnChar (sep : Char) : List Char → List (List Char)
  | [] => [[]]
  | c :: rest =>
    let r := splitOnChar sep rest
    if c = sep then [] :: r
    else
      match r with
      | [] => [[c]]
      | piece :: more => (c :: piece) :: more

/-- Whether the first list is a leading segment of the second (the
semantics of Rust's `str::starts_with`). -/
def isLeadingSegment : List Char → List Char → Bool
  | [], _ => true
  | _ :: _, [] => false
  | a :: as, b :: bs => a = b && isLeadingSegment as bs

/-- Rust's `str::trim`: drop whitespace from both ends. -/
def trimChars (cs : List Char) : List Char :=
  ((cs.dropWhile Char.isWhitespace).reverse.dropWhile
    Char.isWhitespace).reverse

/-- Rust's `str::lines`: split on a line feed, drop the final empty piece a
trailing line feed produces, and strip one trailing carriage return from
each line. -/
def rustLines (s : String) : List (List Char) :=
  let parts := splitOnChar '\n' (strChars s)
  let parts := if parts.getLast? = some [] then parts.dropLast else parts
  parts.map (fun l => if l.getLast? = some '\r' then l.dropLast else l)

/-- The characters of the marker `"File"` a PLS entry line starts with. -/
def fileMarker : List Char := strChars "File"

/-- The scanning loop of `Station::parse_pls` (src/station.rs lines 46-54):
take the first line starting with "File" that has a piece after the first
equals sign, trim that piece and stop; a "File" line without an equals sign
is skipped.  Returns the empty list when no line matches. -/
def findStreamUrl : List (List Char) → List Char
  | [] => []
  | line :: rest =>
    if isLeadingSegment fileMarker line then
      match (splitOnChar '=' line).get? 1 with
      | some url => trimChars url
      | none => findStreamUrl rest
    else
      findStreamUrl rest

/-- The pure tail of `Station::parse_pls` (src/station.rs lines 42-60),
applied to the fetched PLS body: an empty scan result is the error
"No stream URL found in PLS file". -/
def parse_pls (pls_content : String) : Except String String :=
  let stream_url := findStreamUrl (rustLines pls_content)
  if stream_url = [] then Except.error "No stream URL found in PLS file"
  else Except.ok (String.mk stream_url)

/-- The URL `fetch_all` selects for a channel (src/station.rs lines 72-76):
the first playlist with format "mp3" and quality "highest", or the empty
string (`unwrap_or_default`) when none exists. -/
def selectedUrl (channel : Channel) : String :=
  (((channel.playlists.find?
      (fun p => p.format = "mp3" && p.quality = "highest")).map
        Playlist.url).getD "")

/-- The per-channel body of `Station::fetch_all` (src/station.rs lines
70-90).  `fetchPls` stands for the network fetch `reqwest::get(url)` plus
body read, returning the PLS text or a transport error. -/
def resolveChannel (fetchPls : String → Except String String)
    (channel : Channel) : Except String Station :=
  match fetchPls (selectedUrl channel) with
  | Except.error e => Except.error e
  | Except.ok content =>
    match parse_pls content with
    | Except.error e => Except.error e
    | Except.ok stream_url =>
      Except.ok {
        id := channel.id,
        title := channel.title,
        description := channel.description,
        dj := channel.dj,
        genre := channel.genre,
        url := stream_url,
        image := channel.image,
        last_playing := channel.lastPlaying }

/-- `Station::fetch_all` over an already-parsed directory response
(src/station.rs lines 62-93).  `try_join_all` yields `Err` as soon as any
channel resolution fails and `Ok` of all stations otherwise; the sequential
recursion below has the same `Err`-vs-`Ok` behaviour. -/
def fetch_all (fetchPls : String → Except String String) :
    List Channel → Except String (List Station)
  | [] => Except.ok []
  | channel :: rest =>
    match resolveChannel fetchPls channel with
    | Except.error e => Except.error e
    | Except.ok station =>
      match fetch_all fetchPls rest with
      | Except.error e => Except.error e
      | Except.ok stations => Except.ok (station :: stations)

/-- A well-formed one-station session state: directory loaded, the startup
cursor on index 0, a live sink, nothing played yet. -/
def station0 : Station := {
  id := "groovesalad", title := "Groove Salad",
  description := "ambient beats", dj := "Rusty", genre := "ambient",
  url := "http://ice.example/groovesalad", image := "gs.png",
  last_playing := "-" }

def sink0 : SinkState := { queue := 0, paused := false, volume := 1 }

def app0 : App := {
  stations := [station0],
  selected_station := some 0,
  active_station := none,
  playback_state := PlaybackState.Stopped,
  sink := some sink0,
  loading := false,
  volume := 1,
  playback_start_time := none,
  total_played := 0,
  last_pause_time := none }

lemma total_played_le_handle_play (app : App) (now : Nat) :
    app.total_played ≤ (handle_play app now).total_played := by
  obtain ⟨st, sel, act, ps, sk, ld, vol, pst, tp, lpt⟩ := app
  cases sel <;> cases sk <;> cases lpt <;> simp only [handle_play] <;>
    (repeat' split) <;> simp

lemma total_played_le_handle_stop (app : App) (now : Nat) (soft_stop : Bool) :
    app.total_played ≤ (handle_stop app now soft_stop).total_played := by
  obtain ⟨st, sel, act, ps, sk, ld, vol, pst, tp, lpt⟩ := app
  cases sk <;> cases ps <;> cases pst <;> simp only [handle_stop] <;>
    (repeat' split) <;> simp

lemma total_played_le_handle_pause (app : App) (now : Nat) :
    app.total_played ≤ (handle_pause app now).total_played := by
  obtain ⟨st, sel, act, ps, sk, ld, vol, pst, tp, lpt⟩ := app
  cases sk <;> cases ps <;> cases pst <;> simp only [handle_pause] <;> simp

/-- C2: the Underrun Monitor's restart path equals a fresh Play: it stops
and empties the sink, sets `PlaybackState` to Stopped, and, whenever a
station index is selected and within the station list, invokes the same
`handle_play` operation the Command Router would invoke for a Play command,
bound to the currently selected station index at the time of restart. -/
theorem restart_playback_eq_fresh_play (app : App) (now : Nat) :
    restart_playback app now = restart_as_fresh_play app now := by
  obtain ⟨st, sel, act, ps, sk, ld, vol, pst, tp, lpt⟩ := app
  cases sk <;> cases sel <;> rfl

/-- C7: `total_played` is monotonically non-decreasing under every session
operation — `handle_play`, `handle_stop` with either value of `soft_stop`,
and `handle_pause` — from every session state. -/
theorem total_played_monotone (app : App) (now : Nat) (soft_stop : Bool) :
    app.total_played ≤ (handle_play app now).total_played ∧
    app.total_played ≤ (handle_stop app now soft_stop).total_played ∧
    app.total_played ≤ (handle_pause app now).total_played :=
  ⟨total_played_le_handle_play app now,
   total_played_le_handle_stop app now soft_stop,
   total_played_le_handle_pause app now⟩

/-- C8: spec-modelled backoff schedule.  The required backoff is
`min(0.5 * 2^restart_attempts, 30)`: it starts at 0.5, doubles (under the
cap) with each attempt, equals `2^n / 2` until the cap binds at six
attempts, never exceeds 30 seconds, is non-decreasing in the attempt
counter, and a successful reconnect resets the counter so the next
required backoff is again 0.5. -/
theorem backoff_schedule_and_reset :
    required_backoff 0 = 1/2 ∧
    (∀ n : Nat, required_backoff (n + 1) = min (2 * required_backoff n) 30) ∧
    (∀ n : Nat, required_backoff n = if n ≤ 5 then 2 ^ n / 2 else 30) ∧
    (∀ n : Nat, required_backoff n ≤ required_backoff (n + 1)) ∧
    (∀ n : Nat, required_backoff n ≤ 30) ∧
    (∀ (t : UnderrunTracker) (now : Nat),
      required_backoff
        (on_reconnect_success (on_restart t now)).restart_attempts = 1/2) := by
  have hdouble : ∀ n : Nat,
      (1/2 : ℚ) * 2 ^ (n + 1) = 2 * (1/2 * 2 ^ n) := by
    intro n; ring
  refine ⟨by norm_num [required_backoff], ?_, ?_, ?_, ?_, ?_⟩
  · intro n
    unfold required_backoff
    rcases le_total ((1/2 : ℚ) * 2 ^ n) 30 with h | h
    · rw [min_eq_left h, hdouble]
    · rw [min_eq_right h, hdouble]
      have h2 : (30 : ℚ) ≤ 2 * (1/2 * 2 ^ n) := by linarith
      rw [min_eq_right h2, min_eq_right (by linarith : (30:ℚ) ≤ 2 * 30)]
  · intro n
    unfold required_backoff
    by_cases hn : n ≤ 5
    · have hpow : (2 : ℚ) ^ n ≤ 2 ^ 5 := by
        exact pow_le_pow_right₀ one_le_two hn
      rw [if_pos hn, min_eq_left (by norm_num at hpow ⊢; linarith)]
      ring
    · have h6 : 6 ≤ n := by omega
      have hpow : (2 : ℚ) ^ 6 ≤ 2 ^ n := by
        exact pow_le_pow_right₀ one_le_two h6
      rw [if_neg hn, min_eq_right (by norm_num at hpow ⊢; linarith)]
  · intro n
    unfold required_backoff
    refine min_le_min ?_ le_rfl
    rw [hdouble n]
    have hpos : (0:ℚ) ≤ 1/2 * 2 ^ n := by positivity
    linarith
  · intro n
    exact min_le_right _ _
  · intro t now
    norm_num [on_reconnect_success, on_restart, required_backoff]

/-- The reachable state C9 names: the startup cursor defaults to index 0
(src/main.rs lines 105-106) while `loading` ends false with an empty
station list after a failed directory fetch (src/main.rs lines 153-160). -/
def appFetchFailed : App := { app0 with stations := [] }

/-- C9: at the reachable state with `loading = false`, an empty station
list, and the startup selection `Some(0)`, `handle_down` evaluates
`stations.len() - 1 = 0 - 1` on a `usize`: the subtraction underflows
(`none` models the debug-build panic; a release build wraps to
`usize::MAX` and then selects the out-of-bounds index 1).  `handle_up`,
by contrast, is total. -/
theorem down_on_empty_stations_underflows :
    appFetchFailed.loading = false ∧
    appFetchFailed.stations = [] ∧
    appFetchFailed.selected_station = some 0 ∧
    handle_down appFetchFailed = none ∧
    handle_up appFetchFailed = appFetchFailed := by
  refine ⟨rfl, rfl, rfl, ?_, rfl⟩
  rfl

/-- A session state whose stored volume 1.95 lies inside [0, 2]. -/
def appVol : App := { app0 with volume := 39/20 }

/-- C6 counterexample: from the in-range volume 1.95 the guard
`volume < 2.0` passes and `handle_volume_up` stores 2.05, outside
[0.0, 2.0] — the claim that VolumeUp leaves every in-range volume in
range is false. -/
theorem volume_up_exceeds_two_cex :
    (0 ≤ appVol.volume ∧ appVol.volume ≤ 2) ∧
    (handle_volume_up appVol).volume = 41/20 ∧
    ¬ (handle_volume_up appVol).volume ≤ 2 := by
  refine ⟨⟨by norm_num [appVol, app0], by norm_num [appVol, app0]⟩, ?_, ?_⟩ <;>
    norm_num [handle_volume_up, appVol, app0]

/-- C6 amended: `set_volume` (spec-modelled, the `control` module is not
under src/) clamps to [0.0, 2.0], mapping -1.0 to 0.0 and 3.0 to 2.0; the
keyboard volume steps only guard before stepping by 0.1, so from a stored
volume in [0.0, 2.0] `handle_volume_up` lands in [0.0, 2.1] (it can
overshoot 2.0, as the counterexample shows) and `handle_volume_down` lands
in [-0.1, 2.0]. -/
theorem volume_clamp_and_step_bounds (app : App)
    (h0 : 0 ≤ app.volume) (h2 : app.volume ≤ 2) :
    (set_volume app (-1)).volume = 0 ∧
    (set_volume app 3).volume = 2 ∧
    (∀ v : ℚ, 0 ≤ (set_volume app v).volume ∧ (set_volume app v).volume ≤ 2) ∧
    0 ≤ (handle_volume_up app).volume ∧
    (handle_volume_up app).volume ≤ 2 + 1/10 ∧
    -(1/10) ≤ (handle_volume_down app).volume ∧
    (handle_volume_down app).volume ≤ 2 := by
  refine ⟨?_, ?_, ?_, ?_, ?_, ?_, ?_⟩
  · norm_num [set_volume]
  · norm_num [set_volume]
  · intro v
    constructor
    · simp [set_volume]
    · simp only [set_volume]
      exact max_le (by norm_num) (min_le_right v 2)
  · unfold handle_volume_up
    split <;> (try simp) <;> linarith
  · unfold handle_volume_up
    split <;> (try simp) <;> linarith
  · unfold handle_volume_down
    split <;> (try simp) <;> linarith
  · unfold handle_volume_down
    split <;> (try simp) <;> linarith

/-- C6 witness: the amended bounds applied at the concrete state `app0`
(stored volume 1.0). -/
theorem volume_clamp_and_step_bounds_witness :
    (set_volume app0 (-1)).volume = 0 ∧
    0 ≤ (handle_volume_up app0).volume ∧
    (handle_volume_up app0).volume ≤ 2 + 1/10 :=
  have h := volume_clamp_and_step_bounds app0
    (by norm_num [app0]) (by norm_num [app0])
  ⟨h.1, h.2.2.2.1, h.2.2.2.2.1⟩

/-- C1 counterexample: from the Stopped state `app0`, `handle_play` sets
`playback_state := Playing` synchronously when it spawns the connect task
(src/keyboard.rs line 198); after the connect attempt fails the state is
still Playing, not the prior Stopped — and an early connect failure (the
`?` exits) emits no Error entry at all. -/
theorem play_connect_failure_leaves_playing_cex :
    app0.playback_state = PlaybackState.Stopped ∧
    (apply_play_outcome 1 (handle_play app0 0)
        StreamOutcome.connectFail).playback_state = PlaybackState.Playing ∧
    MessageType.Error ∉ play_all_logs StreamOutcome.connectFail := by
  refine ⟨rfl, rfl, ?_⟩
  decide

/-- C1 amended: whenever a station is selected, exists, and a sink is
present, `handle_play` sets `playback_state` to Playing before the spawned
connect attempt resolves, and a failed attempt leaves it Playing — the
state is not restored to its prior value.  An Error diagnostic is logged
exactly when the failure happens in the download step; the early connect
failures exit the task through `?` and log no Error. -/
theorem play_connect_failure_state_and_logs (app : App) (now : Nat)
    (index : Nat) (station : Station) (v : ℚ) (o : StreamOutcome)
    (hsel : app.selected_station = some index)
    (hst : app.stations.get? index = some station)
    (hsink : app.sink.isSome)
    (hfail : o ≠ StreamOutcome.success) :
    (apply_play_outcome v (handle_play app now) o).playback_state
      = PlaybackState.Playing ∧
    (MessageType.Error ∈ play_all_logs o ↔ o = StreamOutcome.downloadFail) := by
  constructor
  · obtain ⟨st, sel, act, ps, sk, ld, vol, pst, tp, lpt⟩ := app
    simp only at hsel hst
    subst hsel
    rw [List.get?_eq_getElem?] at hst
    cases sk with
    | none => simp at hsink
    | some s =>
      cases o with
      | success => exact absurd rfl hfail
      | connectFail =>
        cases lpt <;> simp [handle_play, hst, apply_play_outcome]
      | downloadFail =>
        cases lpt <;> simp [handle_play, hst, apply_play_outcome]
  · cases o with
    | success => exact absurd rfl hfail
    | connectFail => simp [play_all_logs, play_task_logs, play_supervisor_logs]
    | downloadFail => simp [play_all_logs, play_task_logs, play_supervisor_logs]

/-- C1 witness: the amended theorem applied at the concrete state `app0`
with a download-step failure. -/
theorem play_connect_failure_state_and_logs_witness :
    (apply_play_outcome 1 (handle_play app0 5)
        StreamOutcome.downloadFail).playback_state = PlaybackState.Playing ∧
    (MessageType.Error ∈ play_all_logs StreamOutcome.downloadFail ↔
      StreamOutcome.downloadFail = StreamOutcome.downloadFail) :=
  play_connect_failure_state_and_logs app0 5 0 station0 1
    StreamOutcome.downloadFail rfl rfl rfl (by decide)

/-- A session state in which 5 time units have already been played. -/
def appPlayed5 : App := { app0 with total_played := 5 }

/-- C3 counterexample: `handle_play` does not reset `total_played` to zero
at the start of the new binding — starting a new play from `appPlayed5`
leaves `total_played` at 5. -/
theorem play_does_not_reset_total_played_cex :
    (handle_play appPlayed5 10).playback_state = PlaybackState.Playing ∧
    (handle_play appPlayed5 10).total_played = 5 := by
  exact ⟨rfl, rfl⟩

/-- C3 amended: `handle_play` never resets `total_played`: under a monotone
clock (any recorded `last_pause_time` is at or before `now`) a new play
binding leaves `total_played` exactly unchanged — the fold it performs is
the saturating difference `last_pause_time - now`, which is zero — and no
stop or pause operation ever decreases it. -/
theorem play_preserves_total_played (app : App) (now : Nat)
    (hpt : ∀ p, app.last_pause_time = some p → p ≤ now) :
    (handle_play app now).total_played = app.total_played ∧
    (∀ soft_stop, app.total_played ≤ (handle_stop app now soft_stop).total_played) ∧
    app.total_played ≤ (handle_pause app now).total_played := by
  refine ⟨?_, fun soft_stop => total_played_le_handle_stop app now soft_stop,
    total_played_le_handle_pause app now⟩
  obtain ⟨st, sel, act, ps, sk, ld, vol, pst, tp, lpt⟩ := app
  cases sel with
  | none => rfl
  | some idx =>
    cases sk with
    | none =>
      simp only [handle_play]
      split <;> rfl
    | some s =>
      cases lpt with
      | none =>
        simp only [handle_play]
        split <;> rfl
      | some p =>
        have hp : p ≤ now := hpt p rfl
        simp only [handle_play]
        split
        · rfl
        · simp [Nat.sub_eq_zero_of_le hp]

/-- C3 witness: the amended theorem applied at `appPlayed5` (whose
`last_pause_time` is `none`) at instant 10. -/
theorem play_preserves_total_played_witness :
    (handle_play appPlayed5 10).total_played = appPlayed5.total_played :=
  (play_preserves_total_played appPlayed5 10
    (by intro p hp; simp [appPlayed5, app0] at hp)).1

/-- C4: time accounting for `play → pause → resume → stop`.  From a fresh
session (nothing accumulated, no pending pause) with a valid selection and
a sink, running `handle_play` at `t0`, `handle_pause` at `t1`
(Playing→Paused), `handle_pause` at `t2` (Paused→Playing) and
`handle_stop(soft=false)` at `t3` leaves `total_played` equal to the sum of
the two Playing intervals; the paused gap `t2 - t1` is excluded. -/
theorem time_accounting_play_pause_resume_stop (app : App)
    (t0 t1 t2 t3 : Nat) (index : Nat) (station : Station)
    (hsel : app.selected_station = some index)
    (hst : app.stations.get? index = some station)
    (hsink : app.sink.isSome)
    (hlp : app.last_pause_time = none)
    (htp : app.total_played = 0)
    (h01 : t0 ≤ t1) (h23 : t2 ≤ t3) :
    (handle_stop (handle_pause (handle_pause (handle_play app t0) t1) t2) t3
        false).total_played = (t1 - t0) + (t3 - t2) := by
  obtain ⟨st, sel, act, ps, sk, ld, vol, pst, tp, lpt⟩ := app
  simp only at hsel hst hlp htp
  subst hsel; subst hlp; subst htp
  cases sk with
  | none => simp at hsink
  | some s =>
    simp only [handle_play, hst, handle_pause, handle_stop]
    omega

/-- C4 witness: the accounting theorem at `app0` with transition instants
0, 3, 5, 9: the Playing intervals are 3 and 4 units; the paused gap of 2
units is excluded. -/
theorem time_accounting_play_pause_resume_stop_witness :
    (handle_stop (handle_pause (handle_pause (handle_play app0 0) 3) 5) 9
        false).total_played = (3 - 0) + (9 - 5) :=
  time_accounting_play_pause_resume_stop app0 0 3 5 9 0 station0
    rfl rfl rfl rfl rfl (by decide) (by decide)

lemma handle_stop_hard_noop (a : App) (t : Nat)
    (h : a.playback_state ≠ PlaybackState.Playing) :
    handle_stop a t false = a := by
  obtain ⟨st, sel, act, ps, sk, ld, vol, pst, tp, lpt⟩ := a
  cases sk with
  | none => rfl
  | some s =>
    cases ps with
    | Playing => exact absurd rfl h
    | Paused => rfl
    | Stopped => rfl

/-- A paused session state. -/
def appPaused : App := { app0 with playback_state := PlaybackState.Paused }

/-- C5 counterexample: from the Paused state, `handle_stop(soft=false)` is
a no-op — calling it twice leaves `PlaybackState` at Paused, not Stopped,
so the claim does not hold from every session state. -/
theorem stop_twice_from_paused_cex :
    (handle_stop (handle_stop appPaused 1 false) 2 false).playback_state
      = PlaybackState.Paused ∧
    (handle_stop (handle_stop appPaused 1 false) 2 false).playback_state
      ≠ PlaybackState.Stopped := by
  exact ⟨rfl, by decide⟩

/-- C5 amended: from every session state with a sink present that is not
Paused, calling `handle_stop(soft=false)` twice in a row leaves
`PlaybackState = Stopped`, and the second call changes nothing at all — in
particular the elapsed Playing interval is folded into `total_played` at
most once.  From Paused, `stop(soft=false)` is a no-op and the state stays
Paused. -/
theorem stop_twice_idempotent_from_nonpaused (app : App) (t1 t2 : Nat)
    (hsink : app.sink.isSome)
    (hnp : app.playback_state ≠ PlaybackState.Paused) :
    (handle_stop app t1 false).playback_state = PlaybackState.Stopped ∧
    handle_stop (handle_stop app t1 false) t2 false
      = handle_stop app t1 false := by
  have hstopped :
      (handle_stop app t1 false).playback_state = PlaybackState.Stopped := by
    obtain ⟨st, sel, act, ps, sk, ld, vol, pst, tp, lpt⟩ := app
    cases sk with
    | none => simp at hsink
    | some s =>
      cases ps with
      | Paused => exact absurd rfl hnp
      | Playing => cases pst <;> rfl
      | Stopped => rfl
  exact ⟨hstopped,
    handle_stop_hard_noop _ t2 (by rw [hstopped]; intro hcon; cases hcon)⟩

/-- C5 witness: the amended theorem at the Stopped state `app0`. -/
theorem stop_twice_idempotent_from_nonpaused_witness :
    (handle_stop app0 1 false).playback_state = PlaybackState.Stopped ∧
    handle_stop (handle_stop app0 1 false) 2 false
      = handle_stop app0 1 false :=
  stop_twice_idempotent_from_nonpaused app0 1 2 rfl (by decide)

/-- Whether an `Except` computation succeeded. -/
def exceptIsOk {ε α : Type} : Except ε α → Bool
  | Except.ok _ => true
  | Except.error _ => false

lemma fetch_all_ok_iff (f : String → Except String String)
    (cs : List Channel) :
    exceptIsOk (fetch_all f cs) = true ↔
      ∀ c ∈ cs, exceptIsOk (resolveChannel f c) = true := by
  induction cs with
  | nil => simp [fetch_all, exceptIsOk]
  | cons c rest ih =>
    simp only [fetch_all]
    cases h : resolveChannel f c with
    | error e => simp [exceptIsOk, h]
    | ok stn =>
      cases hr : fetch_all f rest with
      | error e =>
        simp only [exceptIsOk, hr] at ih
        simp [exceptIsOk, h, ← ih]
      | ok stns =>
        simp only [exceptIsOk, hr] at ih
        simp [exceptIsOk, h, ← ih]

lemma findStreamUrl_empty_of_no_file (ls : List (List Char))
    (h : ∀ l ∈ ls, isLeadingSegment fileMarker l = false) :
    findStreamUrl ls = [] := by
  induction ls with
  | nil => rfl
  | cons l rest ih =>
    simp only [findStreamUrl]
    rw [h l (List.mem_cons_self l rest)]
    simp only [Bool.false_eq_true, if_false]
    exact ih (fun x hx => h x (List.mem_cons_of_mem l hx))

lemma resolveChannel_err_of_no_mp3 (f : String → Except String String)
    (c : Channel)
    (hfind : c.playlists.find?
      (fun p => p.format = "mp3" && p.quality = "highest") = none)
    (hempty : exceptIsOk (f "") = false) :
    exceptIsOk (resolveChannel f c) = false := by
  unfold resolveChannel selectedUrl
  rw [hfind]
  simp only [Option.map_none', Option.getD_none]
  cases hf : f "" with
  | error e => simp [exceptIsOk]
  | ok content => simp [exceptIsOk, hf] at hempty

lemma resolveChannel_err_of_no_file (f : String → Except String String)
    (c : Channel) (content : String)
    (hok : f (selectedUrl c) = Except.ok content)
    (hnofile : ∀ l ∈ rustLines content, isLeadingSegment fileMarker l = false) :
    exceptIsOk (resolveChannel f c) = false := by
  unfold resolveChannel
  rw [hok]
  have h1 := findStreamUrl_empty_of_no_file (rustLines content) hnofile
  simp [parse_pls, h1, exceptIsOk]

/-- C10: `Station::fetch_all` is all-or-nothing.  `fetchPls` stands for the
network fetch of a playlist URL; since `reqwest::get("")` cannot succeed,
the hypothesis records that fetching the empty default URL fails.  Then:
the whole fetch succeeds exactly when every channel resolves; a channel
with no playlist of format "mp3" and quality "highest" forces an `Err`
result; and so does a channel whose fetched PLS body has no line starting
with "File".  In each failure case no station list at all is delivered. -/
theorem fetch_all_all_or_nothing (f : String → Except String String)
    (cs : List Channel)
    (hempty : exceptIsOk (f "") = false) :
    (exceptIsOk (fetch_all f cs) = true ↔
      ∀ c ∈ cs, exceptIsOk (resolveChannel f c) = true) ∧
    (∀ c ∈ cs,
      c.playlists.find?
        (fun p => p.format = "mp3" && p.quality = "highest") = none →
      exceptIsOk (fetch_all f cs) = false) ∧
    (∀ c ∈ cs, ∀ content, f (selectedUrl c) = Except.ok content →
      (∀ l ∈ rustLines content, isLeadingSegment fileMarker l = false) →
      exceptIsOk (fetch_all f cs) = false) := by
  refine ⟨fetch_all_ok_iff f cs, ?_, ?_⟩
  · intro c hc hfind
    have hbad := resolveChannel_err_of_no_mp3 f c hfind hempty
    cases hcase : exceptIsOk (fetch_all f cs) with
    | false => rfl
    | true =>
      exact absurd ((fetch_all_ok_iff f cs).mp hcase c hc) (by simp [hbad])
  · intro c hc content hok hnofile
    have hbad := resolveChannel_err_of_no_file f c content hok hnofile
    cases hcase : exceptIsOk (fetch_all f cs) with
    | false => rfl
    | true =>
      exact absurd ((fetch_all_ok_iff f cs).mp hcase c hc) (by simp [hbad])

/-- A one-channel directory whose PLS fetch succeeds with a File line. -/
def plsGood : String := "[playlist]\nFile1=http://ice.example/stream\n"

def fDir : String → Except String String := fun u =>
  if u = "http://api.example/gs.pls" then Except.ok plsGood
  else Except.error "request failed"

def chanGood : Channel := {
  id := "gs", title := "Groove Salad", description := "d", dj := "dj",
  genre := "ambient", image := "i", lastPlaying := "lp",
  playlists :=
    [{ url := "http://api.example/gs.pls", format := "mp3",
       quality := "highest" }] }

/-- C10 witness: on the concrete one-channel directory whose single
channel resolves, `fetch_all` succeeds. -/
theorem fetch_all_all_or_nothing_witness :
    exceptIsOk (fetch_all fDir [chanGood]) = true :=
  (fetch_all_all_or_nothing fDir [chanGood] (by decide)).1.mpr (by decide)
